import Mathlib

/-!
Verification of the multi-agent smart-traffic repository.

This file shallowly embeds the core data structures and operations of the
repository (grid city, event store, occupancy tracker, traffic-light
controller, vehicle negotiation loop, A* router) as executable Lean
definitions and proves or refutes the specified properties about them.

Conventions:
  - Python wall-clock time (`time.time()`) is an explicit rational parameter
    `now`; a function of the source that reads the clock takes `now` as an
    argument.  Consecutive reads of the clock inside one call are modelled as
    the same instant.
  - Python floats are modelled as rationals.
  - Python dictionaries keyed by edges are modelled as functions
    `Edge → Option _`; dictionary mutation becomes a pointwise functional
    update.
-/

namespace Traffic

/-- Grid node `(x, y)` (Python tuple of two ints). -/
abbrev Node : Type := ℤ × ℤ

/-- Edge between two nodes, as stored before normalization. -/
abbrev Edge : Type := Node × Node

/-- Python lexicographic tuple comparison `u <= v` on two int pairs. -/
def nodeLe (a b : Node) : Bool :=
  decide (a.1 < b.1) || (decide (a.1 = b.1) && decide (a.2 ≤ b.2))

/-- `EventManager._normalize_edge` / `Occupancy._normalize_edge`: return
`(u, v)` with `u <= v` in lexicographic order (`tuple(sorted((u, v)))` and
`(u, v) if u <= v else (v, u)` agree on two elements). -/
def normalizeEdge (e : Edge) : Edge :=
  if nodeLe e.1 e.2 then e else (e.2, e.1)

/-! ## events.py : `Incident` and `EventManager` -/

/-- `Incident` dataclass from `environment/events.py`: a temporary event on an
edge.  The `edge` key is kept outside (as the dictionary key); the record holds
the remaining fields. -/
structure Incident where
  severity : ℚ
  ttl : ℚ
  createdAt : ℚ
  expiresAt : ℚ
  deriving DecidableEq, Repr

/-- `EventManager.incidents`: dictionary from normalized edge to incident. -/
def EventMap : Type := Edge → Option Incident

/-- The empty event manager (`EventManager.__init__`). -/
def emEmpty : EventMap := fun _ => none

/-- `EventManager.clear_expired` at time `now`: drop every incident with
`expires_at <= now` (the source also re-tests `not inc.is_active()`, i.e.
`not (now < expires_at)`, which is the same condition at a single instant). -/
def clearExpired (em : EventMap) (now : ℚ) : EventMap := fun e =>
  match em e with
  | some inc => if inc.expiresAt ≤ now then none else some inc
  | none => none

/-- `EventManager.spawn_incident(edge, severity, ttl)` at time `now`:
normalize the edge, sweep expired incidents, then refresh an existing active
incident (severity takes the max, expiry resets to `now + ttl`) or insert a
fresh `Incident` (whose `__post_init__` sets `created_at = now` and
`expires_at = now + ttl`). -/
def spawnIncident (em : EventMap) (edge : Edge) (severity ttl now : ℚ) : EventMap :=
  let key := normalizeEdge edge
  let em2 := clearExpired em now
  match em2 key with
  | some inc =>
      fun e => if e = key then
        some { inc with severity := max inc.severity severity, expiresAt := now + ttl }
      else em2 e
  | none =>
      fun e => if e = key then
        some { severity := severity, ttl := ttl, createdAt := now, expiresAt := now + ttl }
      else em2 e

/-- `EventManager.spawn_temporary_block(edge, ttl)`: severity-10 incident. -/
def spawnTemporaryBlock (em : EventMap) (edge : Edge) (ttl now : ℚ) : EventMap :=
  spawnIncident em edge 10 ttl now

/-- `EventManager.is_blocked(edge, threshold=3.0)` at time `now`: normalize,
sweep expired incidents, and report whether an incident with
`severity >= threshold` remains on the edge. -/
def isBlocked (em : EventMap) (edge : Edge) (threshold now : ℚ) : Bool :=
  let em2 := clearExpired em now
  match em2 (normalizeEdge edge) with
  | some inc => decide (threshold ≤ inc.severity)
  | none => false

/-- `EventManager.penalty(edge)` at time `now`: the severity of the active
incident on the edge, or `0.0` if the edge is clear. -/
def emPenalty (em : EventMap) (edge : Edge) (now : ℚ) : ℚ :=
  let em2 := clearExpired em now
  match em2 (normalizeEdge edge) with
  | some inc => inc.severity
  | none => 0

end Traffic

namespace Traffic

/-! ## Merging of gossiped incident facts

`EmergencyVehicleAgent.EmergencyBehaviour.run` consumes `incident_gossip`
messages by calling `self.agent.city.event_manager.merge_from_message(payload)`
with a payload `{edge, severity, expires_at}`.  The `EventManager` class in
`environment/events.py` does not define `merge_from_message`; only this caller
exists in the source tree, so the operation is modelled from the spec. -/

/-- Modelled from the spec: `mergeExternal(fact)` is missing from
`environment/events.py` (only its caller in `agents/emergency_vehicle.py`
exists).  Per the spec it accepts a remotely observed incident fact
`(segment, severity, expiresAt)` and applies the same refresh rule as `spawn`
(`spawn_incident`: normalize the edge, sweep expired incidents, refresh an
existing active incident taking the max severity, else insert a fresh record),
but uses the remote `expiresAt` directly rather than `now + ttl`. -/
def mergeFromMessage (em : EventMap) (edge : Edge) (severity expiresAt now : ℚ) : EventMap :=
  let key := normalizeEdge edge
  let em2 := clearExpired em now
  match em2 key with
  | some inc =>
      fun e => if e = key then
        some { inc with severity := max inc.severity severity, expiresAt := expiresAt }
      else em2 e
  | none =>
      fun e => if e = key then
        some { severity := severity, ttl := expiresAt - now, createdAt := now,
               expiresAt := expiresAt }
      else em2 e

/-- The live view of the store at time `now`: per-segment severity and expiry
of the incidents that survive the expiry sweep (the store runs
`clear_expired` before every query, so this is the state callers observe). -/
def liveView (em : EventMap) (now : ℚ) : Edge → Option (ℚ × ℚ) := fun e =>
  (clearExpired em now e).map fun inc => (inc.severity, inc.expiresAt)

/-- Sweeping twice at the same instant changes nothing. -/
theorem clearExpired_idem (em : EventMap) (now : ℚ) :
    clearExpired (clearExpired em now) now = clearExpired em now := by
  funext e
  unfold clearExpired
  rcases em e with _ | inc
  · rfl
  · by_cases h : inc.expiresAt ≤ now <;> simp [h]

/-- Off the merged key, a merge only performs the expiry sweep. -/
theorem mergeFromMessage_apply_ne (em : EventMap) (edge : Edge)
    (severity expiresAt now : ℚ) (e : Edge) (he : e ≠ normalizeEdge edge) :
    mergeFromMessage em edge severity expiresAt now e = clearExpired em now e := by
  unfold mergeFromMessage
  rcases clearExpired em now (normalizeEdge edge) with _ | inc <;> simp [he]

/-- Value of a merge at the merged (normalized) key. -/
theorem mergeFromMessage_apply_key (em : EventMap) (edge : Edge) (s T now : ℚ) :
    mergeFromMessage em edge s T now (normalizeEdge edge) =
      some (match clearExpired em now (normalizeEdge edge) with
            | some inc => { inc with severity := max inc.severity s, expiresAt := T }
            | none => { severity := s, ttl := T - now, createdAt := now, expiresAt := T }) := by
  unfold mergeFromMessage
  rcases clearExpired em now (normalizeEdge edge) with _ | inc <;> simp

/-- Unfolding equation for `is_blocked` (the `let` is zeta-reduced). -/
theorem isBlocked_eq (em : EventMap) (edge : Edge) (threshold now : ℚ) :
    isBlocked em edge threshold now =
      match clearExpired em now (normalizeEdge edge) with
      | some inc => decide (threshold ≤ inc.severity)
      | none => false := rfl

/-- Unfolding equation for `penalty` (the `let` is zeta-reduced). -/
theorem emPenalty_eq (em : EventMap) (edge : Edge) (now : ℚ) :
    emPenalty em edge now =
      match clearExpired em now (normalizeEdge edge) with
      | some inc => inc.severity
      | none => 0 := rfl

/-- Sweeping depends only on the value at the queried edge. -/
theorem clearExpired_apply_eq (em em2 : EventMap) (now : ℚ) (e : Edge)
    (h : em e = em2 e) : clearExpired em now e = clearExpired em2 now e := by
  unfold clearExpired
  rw [h]

/-! ### C3: merge idempotence -/

/-- C3: applying the same `merge_from_message` fact twice (at one instant)
yields the same observable event-store state, per-segment severity and expiry
included, as applying it once. -/
theorem C3_merge_from_message_idempotent (em : EventMap) (edge : Edge) (s T now : ℚ) :
    liveView (mergeFromMessage (mergeFromMessage em edge s T now) edge s T now) now
      = liveView (mergeFromMessage em edge s T now) now := by
  funext e
  unfold liveView
  by_cases he : e = normalizeEdge edge
  · subst he
    have hM1 := mergeFromMessage_apply_key em edge s T now
    rcases hm : clearExpired em now (normalizeEdge edge) with _ | inc
    · rw [hm] at hM1
      by_cases hT : T ≤ now
      · have hcl : clearExpired (mergeFromMessage em edge s T now) now (normalizeEdge edge)
            = none := by
          unfold clearExpired
          rw [hM1]
          simp [hT]
        have hM2 := mergeFromMessage_apply_key (mergeFromMessage em edge s T now) edge s T now
        rw [hcl] at hM2
        have hcl2 : clearExpired
            (mergeFromMessage (mergeFromMessage em edge s T now) edge s T now) now
            (normalizeEdge edge) = none := by
          unfold clearExpired
          rw [hM2]
          simp [hT]
        rw [hcl, hcl2]
      · have hcl : clearExpired (mergeFromMessage em edge s T now) now (normalizeEdge edge)
            = some { severity := s, ttl := T - now, createdAt := now, expiresAt := T } := by
          unfold clearExpired
          rw [hM1]
          simp [hT]
        have hM2 := mergeFromMessage_apply_key (mergeFromMessage em edge s T now) edge s T now
        rw [hcl] at hM2
        have hcl2 : clearExpired
            (mergeFromMessage (mergeFromMessage em edge s T now) edge s T now) now
            (normalizeEdge edge)
            = some { severity := max s s, ttl := T - now, createdAt := now, expiresAt := T } := by
          unfold clearExpired
          rw [hM2]
          simp [hT]
        rw [hcl, hcl2]
        simp
    · rw [hm] at hM1
      by_cases hT : T ≤ now
      · have hcl : clearExpired (mergeFromMessage em edge s T now) now (normalizeEdge edge)
            = none := by
          unfold clearExpired
          rw [hM1]
          simp [hT]
        have hM2 := mergeFromMessage_apply_key (mergeFromMessage em edge s T now) edge s T now
        rw [hcl] at hM2
        have hcl2 : clearExpired
            (mergeFromMessage (mergeFromMessage em edge s T now) edge s T now) now
            (normalizeEdge edge) = none := by
          unfold clearExpired
          rw [hM2]
          simp [hT]
        rw [hcl, hcl2]
      · have hcl : clearExpired (mergeFromMessage em edge s T now) now (normalizeEdge edge)
            = some { severity := max inc.severity s, ttl := inc.ttl,
                     createdAt := inc.createdAt, expiresAt := T } := by
          unfold clearExpired
          rw [hM1]
          simp [hT]
        have hM2 := mergeFromMessage_apply_key (mergeFromMessage em edge s T now) edge s T now
        rw [hcl] at hM2
        have hcl2 : clearExpired
            (mergeFromMessage (mergeFromMessage em edge s T now) edge s T now) now
            (normalizeEdge edge)
            = some { severity := max (max inc.severity s) s, ttl := inc.ttl,
                     createdAt := inc.createdAt, expiresAt := T } := by
          unfold clearExpired
          rw [hM2]
          simp [hT]
        rw [hcl, hcl2]
        simp [max_assoc]
  · have h1 : mergeFromMessage em edge s T now e = clearExpired em now e :=
      mergeFromMessage_apply_ne em edge s T now e he
    have h2 : mergeFromMessage (mergeFromMessage em edge s T now) edge s T now e
        = clearExpired (mergeFromMessage em edge s T now) now e :=
      mergeFromMessage_apply_ne (mergeFromMessage em edge s T now) edge s T now e he
    have h5 : clearExpired (mergeFromMessage (mergeFromMessage em edge s T now) edge s T now)
        now e = clearExpired (mergeFromMessage em edge s T now) now e :=
      (clearExpired_apply_eq _ (clearExpired (mergeFromMessage em edge s T now) now) now e
        h2).trans
        (congrFun (clearExpired_idem (mergeFromMessage em edge s T now) now) e)
    rw [h5]

/-! ### C4: incident blocking invariant -/

/-- C4: for every event-store state, segment, threshold and query time,
`is_blocked` returns `true` exactly when the stored incident on that segment
is still active (`now < expires_at`) and has `severity >= threshold`; and as
soon as the query time reaches `expires_at`, `is_blocked` is `false` with no
manual cleanup call (`clear_expired` runs inside the query itself). -/
theorem C4_is_blocked_iff_active_severe (em : EventMap) (edge : Edge) (threshold now : ℚ) :
    (isBlocked em edge threshold now = true ↔
      ∃ inc : Incident, em (normalizeEdge edge) = some inc ∧
        now < inc.expiresAt ∧ threshold ≤ inc.severity) ∧
    (∀ inc : Incident, em (normalizeEdge edge) = some inc →
      inc.expiresAt ≤ now → isBlocked em edge threshold now = false) := by
  constructor
  · constructor
    · intro h
      unfold isBlocked clearExpired at h
      rcases hm : em (normalizeEdge edge) with _ | inc
      · simp [hm] at h
      · simp only [hm] at h
        by_cases hexp : inc.expiresAt ≤ now
        · simp [hexp] at h
        · refine ⟨inc, rfl, by linarith [not_le.mp hexp], ?_⟩
          simp [hexp] at h
          exact h
    · rintro ⟨inc, hm, hact, hsev⟩
      unfold isBlocked clearExpired
      have hexp : ¬ inc.expiresAt ≤ now := not_le.mpr hact
      simp [hm, hexp, hsev]
  · intro inc hm hexp
    unfold isBlocked clearExpired
    simp [hm, hexp]

/-! ## traffic_lights.py : direction inference and the request handler -/

/-- Movement directions used by `ALLOWED_BY_PHASE`. -/
inductive Dir | N | S | E | W
  deriving DecidableEq, Repr

/-- `direction(from_pos, to_pos)`: infer the travel direction from the
coordinate delta; `None` for any delta that is not a single axis-aligned unit
step. -/
def direction (fromPos toPos : Node) : Option Dir :=
  let dx := toPos.1 - fromPos.1
  let dy := toPos.2 - fromPos.2
  if dx = 1 ∧ dy = 0 then some .E
  else if dx = -1 ∧ dy = 0 then some .W
  else if dx = 0 ∧ dy = 1 then some .N
  else if dx = 0 ∧ dy = -1 then some .S
  else none

/-- Traffic-light phase (`agent.phase` is toggled between `0` and `1`). -/
inductive Phase | p0 | p1
  deriving DecidableEq, Repr

/-- `ALLOWED_BY_PHASE`: phase 0 permits N/S, phase 1 permits E/W. -/
def allowedByPhase : Phase → List Dir
  | .p0 => [.N, .S]
  | .p1 => [.E, .W]

/-- The `granted` / `reason` pair carried by every `passage_reply`. -/
structure Reply where
  granted : Bool
  reason : String
  deriving DecidableEq, Repr

/-- `TrafficLightAgent.LightBehaviour.run`, request-handling part: given the
current phase, the event store and clock, the message metadata `type`, and the
parsed body (`None` when `json.loads`/field extraction failed), produce the
reply.  A `priority_request` is granted unconditionally; any other type is
processed as a passage request: infer the direction (unknown is denied),
grant when the direction is permitted by the phase, then override with a
denial if `event_manager.is_blocked((from_pos, to_pos))` holds. -/
def handleRequest (phase : Phase) (em : EventMap) (now : ℚ) (mtype : String)
    (payload : Option (Node × Node)) : Reply :=
  match payload with
  | none => { granted := false, reason := "invalid_body" }
  | some (fromPos, toPos) =>
    if mtype = "priority_request" then { granted := true, reason := "emergency" }
    else
      match direction fromPos toPos with
      | none => { granted := false, reason := "unknown_direction" }
      | some d =>
        let grantedByPhase := decide (d ∈ allowedByPhase phase)
        if isBlocked em (fromPos, toPos) 3 now then
          { granted := false, reason := "blocked_by_incident" }
        else
          { granted := grantedByPhase, reason := "phase_check" }

/-- Witness for C4 at a concrete store: an incident of severity 10 on segment
`((2,2),(2,3))` expiring at time 5 blocks the segment at time 4 and, with no
intervening cleanup call, no longer blocks it at time 5. -/
theorem C4_is_blocked_iff_active_severe_witness :
    (isBlocked
      (spawnIncident emEmpty ((2,2),(2,3)) 10 1 4) ((2,2),(2,3)) 3 4 = true) ∧
    (isBlocked
      (spawnIncident emEmpty ((2,2),(2,3)) 10 1 4) ((2,2),(2,3)) 3 5 = false) := by
  have hstore : spawnIncident emEmpty ((2,2),(2,3)) 10 1 4 (normalizeEdge ((2,2),(2,3))) =
      some { severity := 10, ttl := 1, createdAt := 4, expiresAt := 5 } := by
    simp only [spawnIncident, clearExpired, emEmpty, normalizeEdge, nodeLe]
    norm_num
  constructor
  · exact (C4_is_blocked_iff_active_severe
      (spawnIncident emEmpty ((2,2),(2,3)) 10 1 4) ((2,2),(2,3)) 3 4).1.mpr
      ⟨{ severity := 10, ttl := 1, createdAt := 4, expiresAt := 5 }, hstore, by norm_num, by norm_num⟩
  · exact (C4_is_blocked_iff_active_severe
      (spawnIncident emEmpty ((2,2),(2,3)) 10 1 4) ((2,2),(2,3)) 3 5).2
      { severity := 10, ttl := 1, createdAt := 4, expiresAt := 5 } hstore (by norm_num)

/-! ### C2: priority requests -/

/-- C2 counterexample: with an active severity-10 incident blocking segment
`((4,4),(4,5))`, the controller still grants a `priority_request` onto that
segment, contradicting the claim that passage is not granted when the
destination segment is incident-blocked. -/
theorem C2_counterexample :
    isBlocked (spawnIncident emEmpty ((4,4),(4,5)) 10 30 0) ((4,4),(4,5)) 3 0 = true ∧
    handleRequest .p0 (spawnIncident emEmpty ((4,4),(4,5)) 10 30 0) 0 "priority_request"
        (some ((4,4),(4,5)))
      = { granted := true, reason := "emergency" } := by
  have hstore : spawnIncident emEmpty ((4,4),(4,5)) 10 30 0 (normalizeEdge ((4,4),(4,5))) =
      some { severity := 10, ttl := 30, createdAt := 0, expiresAt := 30 } := by
    simp only [spawnIncident, clearExpired, emEmpty, normalizeEdge, nodeLe]
    norm_num
  have hcl : clearExpired (spawnIncident emEmpty ((4,4),(4,5)) 10 30 0) 0
      (normalizeEdge ((4,4),(4,5)))
      = some { severity := 10, ttl := 30, createdAt := 0, expiresAt := 30 } := by
    unfold clearExpired
    rw [hstore]
    norm_num
  constructor
  · rw [isBlocked_eq, hcl]
    norm_num
  · simp [handleRequest]

/-- C2 amended: every `priority_request` with a parseable body is granted in
the single exchange, for every phase, event-store state and clock value —
including states in which the destination segment is incident-blocked. -/
theorem C2_priority_always_granted (phase : Phase) (em : EventMap) (now : ℚ)
    (fromPos toPos : Node) :
    handleRequest phase em now "priority_request" (some (fromPos, toPos))
      = { granted := true, reason := "emergency" } := by
  simp [handleRequest]

/-! ### C7: passage grant rule -/

/-- C7: a passage request is granted exactly when the inferred direction is
permitted by the current phase and the segment is not incident-blocked; a
non-axis-aligned unit delta is always denied with reason
`unknown_direction`; and in `Phase0` the concrete request `(4,4) -> (4,5)`
(direction N) is granted while `(4,4) -> (5,4)` (direction E) is denied with
reason `phase_check`. -/
theorem C7_passage_grant_rule :
    (∀ (phase : Phase) (em : EventMap) (now : ℚ) (fromPos toPos : Node),
      (handleRequest phase em now "passage_request" (some (fromPos, toPos))).granted = true ↔
        ∃ d, direction fromPos toPos = some d ∧ d ∈ allowedByPhase phase ∧
          isBlocked em (fromPos, toPos) 3 now = false) ∧
    (∀ (phase : Phase) (em : EventMap) (now : ℚ) (fromPos toPos : Node),
      direction fromPos toPos = none →
        handleRequest phase em now "passage_request" (some (fromPos, toPos))
          = { granted := false, reason := "unknown_direction" }) ∧
    handleRequest .p0 emEmpty 0 "passage_request" (some ((4,4),(4,5)))
      = { granted := true, reason := "phase_check" } ∧
    handleRequest .p0 emEmpty 0 "passage_request" (some ((4,4),(5,4)))
      = { granted := false, reason := "phase_check" } := by
  refine ⟨?_, ?_, by decide, by decide⟩
  · intro phase em now fromPos toPos
    rcases hd : direction fromPos toPos with _ | d
    · simp [handleRequest, hd]
    · by_cases hb : isBlocked em (fromPos, toPos) 3 now
      · simp [handleRequest, hd, hb]
      · have hb2 : isBlocked em (fromPos, toPos) 3 now = false := by simpa using hb
        simp [handleRequest, hd, hb2]
  · intro phase em now fromPos toPos hd
    simp [handleRequest, hd]

/-- Witness for C7: applying the rule at concrete inputs — the diagonal
request `(4,4) -> (6,5)` is denied as `unknown_direction`, and the `Phase0`
northbound request `(4,4) -> (4,5)` on an empty store is granted. -/
theorem C7_passage_grant_rule_witness :
    handleRequest .p0 emEmpty 0 "passage_request" (some ((4,4),(6,5)))
      = { granted := false, reason := "unknown_direction" } ∧
    (handleRequest .p0 emEmpty 0 "passage_request" (some ((4,4),(4,5)))).granted = true :=
  ⟨C7_passage_grant_rule.2.1 .p0 emEmpty 0 (4,4) (6,5) (by decide),
   (C7_passage_grant_rule.1 .p0 emEmpty 0 (4,4) (4,5)).mpr
     ⟨.N, by decide, by decide, by decide⟩⟩

/-! ## occupancy.py : the `Occupancy` tracker -/

/-- State of the `Occupancy` class from `environment/occupancy.py`:
`road_usage` (per-edge occupant set), `capacity` (per-edge, defaultdict with
default 5), `smoothed_density` (per-edge EMA, defaultdict with default `0.0`),
the EMA factor `alpha`, and the edge list of the city graph `G` (used only by
`local_density`). -/
structure Occupancy where
  edges : List Edge
  roadUsage : Edge → Finset String
  capacity : Edge → ℤ
  smoothed : Edge → ℚ
  alpha : ℚ

/-- `Occupancy.__init__(city_graph)` with the default capacity 5 and default
`alpha = 0.3` (the constructor arguments used by `CityEnvironment`). -/
def occStart (edges : List Edge) : Occupancy :=
  { edges := edges, roadUsage := fun _ => ∅, capacity := fun _ => 5,
    smoothed := fun _ => 0, alpha := 3/10 }

/-- `Occupancy.enter(u, v, vehicle_id)`: add the vehicle to the normalized
edge's occupant set. -/
def occEnter (st : Occupancy) (u v : Node) (id : String) : Occupancy :=
  let key := normalizeEdge (u, v)
  { st with roadUsage := fun e =>
      if e = key then insert id (st.roadUsage e) else st.roadUsage e }

/-- `Occupancy.leave(u, v, vehicle_id)`: discard the vehicle from the
normalized edge's occupant set. -/
def occLeave (st : Occupancy) (u v : Node) (id : String) : Occupancy :=
  let key := normalizeEdge (u, v)
  { st with roadUsage := fun e =>
      if e = key then (st.roadUsage e).erase id else st.roadUsage e }

/-- `Occupancy.set_capacity(u, v, cap)`: store `max(int(cap), 1)`. -/
def occSetCapacity (st : Occupancy) (u v : Node) (cap : ℤ) : Occupancy :=
  { st with capacity := fun e =>
      if e = normalizeEdge (u, v) then max cap 1 else st.capacity e }

/-- `Occupancy._instant_rho(edge)`: current occupant count over
`max(capacity, 1)`, clipped to at most `1.0`. -/
def instantRho (st : Occupancy) (edge : Edge) : ℚ :=
  let key := normalizeEdge edge
  min (((st.roadUsage key).card : ℚ) / ((max (st.capacity key) 1 : ℤ) : ℚ)) 1

/-- The value returned by `Occupancy.rho(edge)`:
`alpha * instant + (1 - alpha) * smoothed_density[edge]`. -/
def rhoVal (st : Occupancy) (edge : Edge) : ℚ :=
  st.alpha * instantRho st edge + (1 - st.alpha) * st.smoothed (normalizeEdge edge)

/-- The state mutation performed by `Occupancy.rho(edge)`: the EMA value is
written back to `smoothed_density[edge]`. -/
def rhoStep (st : Occupancy) (edge : Edge) : Occupancy :=
  { st with smoothed := fun e =>
      if e = normalizeEdge edge then rhoVal st edge else st.smoothed e }

/-- Squared Euclidean distance between two nodes
(`Occupancy._distance` squared). -/
def dist2 (a b : Node) : ℚ :=
  (((a.1 - b.1)^2 + (a.2 - b.2)^2 : ℤ) : ℚ)

/-- The comparison `Occupancy._distance(position, n) <= radius`, i.e.
`sqrt(d2) <= radius`, encoded over the rationals as
`0 <= radius and d2 <= radius^2` (equivalent since `sqrt` is nonnegative and
monotone). -/
def withinRadius (a b : Node) (r : ℚ) : Bool :=
  decide (0 ≤ r) && decide (dist2 a b ≤ r^2)

/-- The list comprehension `[self.rho((u, v)) for (u, v) in edges_nearby]`:
`rho` is called on each edge in order, each call both returning a value and
updating the smoothed density; returns the values and the final state. -/
def collectRho (st : Occupancy) : List Edge → List ℚ × Occupancy
  | [] => ([], st)
  | e :: rest =>
      let v := rhoVal st e
      let st2 := rhoStep st e
      let vs := collectRho st2 rest
      (v :: vs.1, vs.2)

/-- `Occupancy.local_density(position, radius)`: average the (sequentially
recomputed) smoothed densities of all graph edges with an endpoint within
`radius` of `position`; `0.0` when no edge is nearby.  Returns the value and
the mutated state. -/
def localDensityRun (st : Occupancy) (pos : Node) (radius : ℚ) : ℚ × Occupancy :=
  let nearby := st.edges.filter
    (fun e => withinRadius pos e.1 radius || withinRadius pos e.2 radius)
  if nearby.isEmpty then (0, st)
  else
    let vs := collectRho st nearby
    (vs.1.sum / (vs.1.length : ℚ), vs.2)

/-- An occupancy history entry: the public mutating operations of the class. -/
inductive OccOp
  | enter (u v : Node) (id : String)
  | leave (u v : Node) (id : String)
  | setCapacity (u v : Node) (cap : ℤ)
  | density (edge : Edge)
  | localDensity (pos : Node) (radius : ℚ)

/-- Apply one history entry to the tracker state. -/
def occStep (st : Occupancy) : OccOp → Occupancy
  | .enter u v id => occEnter st u v id
  | .leave u v id => occLeave st u v id
  | .setCapacity u v c => occSetCapacity st u v c
  | .density e => rhoStep st e
  | .localDensity p r => (localDensityRun st p r).2

/-- Run a full occupancy history from a fresh tracker. -/
def occRun (edges : List Edge) (ops : List OccOp) : Occupancy :=
  ops.foldl occStep (occStart edges)

/-- Invariant carried by every reachable tracker state: all stored smoothed
densities lie in `[0, 1]` and the EMA factor lies in `[0, 1]`. -/
def SmInv (st : Occupancy) : Prop :=
  (∀ e, 0 ≤ st.smoothed e ∧ st.smoothed e ≤ 1) ∧ 0 ≤ st.alpha ∧ st.alpha ≤ 1

theorem instantRho_nonneg (st : Occupancy) (edge : Edge) : 0 ≤ instantRho st edge := by
  unfold instantRho
  refine le_min ?_ zero_le_one
  refine div_nonneg (by positivity) ?_
  have h1 : (1 : ℤ) ≤ max (st.capacity (normalizeEdge edge)) 1 := le_max_right _ _
  exact_mod_cast le_trans zero_le_one h1

theorem instantRho_le_one (st : Occupancy) (edge : Edge) : instantRho st edge ≤ 1 :=
  min_le_right _ _

theorem rhoVal_bounds (st : Occupancy) (h : SmInv st) (edge : Edge) :
    0 ≤ rhoVal st edge ∧ rhoVal st edge ≤ 1 := by
  obtain ⟨hsm, ha0, ha1⟩ := h
  obtain ⟨hp0, hp1⟩ := hsm (normalizeEdge edge)
  have hi0 := instantRho_nonneg st edge
  have hi1 := instantRho_le_one st edge
  unfold rhoVal
  constructor
  · have t1 := mul_nonneg ha0 hi0
    have t2 := mul_nonneg (by linarith : (0:ℚ) ≤ 1 - st.alpha) hp0
    linarith
  · have t1 : st.alpha * instantRho st edge ≤ st.alpha * 1 :=
      mul_le_mul_of_nonneg_left hi1 ha0
    have t2 : (1 - st.alpha) * st.smoothed (normalizeEdge edge) ≤ (1 - st.alpha) * 1 :=
      mul_le_mul_of_nonneg_left hp1 (by linarith)
    linarith

theorem occStart_inv (edges : List Edge) : SmInv (occStart edges) := by
  refine ⟨fun e => ⟨le_refl 0, zero_le_one⟩, by norm_num [occStart], by norm_num [occStart]⟩

theorem rhoStep_inv (st : Occupancy) (h : SmInv st) (edge : Edge) :
    SmInv (rhoStep st edge) := by
  refine ⟨fun e => ?_, h.2.1, h.2.2⟩
  unfold rhoStep
  by_cases he : e = normalizeEdge edge
  · simpa [he] using rhoVal_bounds st h edge
  · simpa [he] using h.1 e

theorem collectRho_spec (l : List Edge) :
    ∀ st : Occupancy, SmInv st →
      (∀ v ∈ (collectRho st l).1, 0 ≤ v ∧ v ≤ 1) ∧ SmInv (collectRho st l).2 := by
  induction l with
  | nil =>
      intro st h
      exact ⟨by simp [collectRho], by simpa [collectRho] using h⟩
  | cons e rest ih =>
      intro st h
      obtain ⟨htail, hinv⟩ := ih (rhoStep st e) (rhoStep_inv st h e)
      constructor
      · intro v hv
        rcases List.mem_cons.mp (by simpa [collectRho] using hv) with hv | hv
        · subst hv
          exact rhoVal_bounds st h e
        · exact htail v hv
      · simpa [collectRho] using hinv

theorem collectRho_length (l : List Edge) :
    ∀ st : Occupancy, (collectRho st l).1.length = l.length := by
  induction l with
  | nil => intro st; simp [collectRho]
  | cons e rest ih => intro st; simp [collectRho, ih]

theorem list_sum_nonneg (l : List ℚ) (h : ∀ x ∈ l, 0 ≤ x) : 0 ≤ l.sum := by
  induction l with
  | nil => simp
  | cons x rest ih =>
      have hx := h x (by simp)
      have hr := ih (fun y hy => h y (by simp [hy]))
      simp only [List.sum_cons]
      linarith

theorem list_sum_le_length (l : List ℚ) (h : ∀ x ∈ l, x ≤ 1) : l.sum ≤ (l.length : ℚ) := by
  induction l with
  | nil => simp
  | cons x rest ih =>
      have hx := h x (by simp)
      have hr := ih (fun y hy => h y (by simp [hy]))
      simp only [List.sum_cons, List.length_cons]
      push_cast
      linarith

theorem localDensityRun_fst_bounds (st : Occupancy) (h : SmInv st) (pos : Node) (r : ℚ) :
    0 ≤ (localDensityRun st pos r).1 ∧ (localDensityRun st pos r).1 ≤ 1 := by
  unfold localDensityRun
  set nearby := st.edges.filter
    (fun e => withinRadius pos e.1 r || withinRadius pos e.2 r) with hnear
  by_cases hemp : nearby.isEmpty
  · simp [hemp]
  · obtain ⟨hvals, _⟩ := collectRho_spec nearby st h
    have hlen : (collectRho st nearby).1.length = nearby.length := collectRho_length nearby st
    have hpos : 0 < ((collectRho st nearby).1.length : ℚ) := by
      rw [hlen]
      have : nearby ≠ [] := by
        intro hne
        rw [hne] at hemp
        simp at hemp
      have : 0 < nearby.length := List.length_pos.mpr this
      exact_mod_cast this
    have hsum0 : 0 ≤ (collectRho st nearby).1.sum :=
      list_sum_nonneg _ (fun x hx => (hvals x hx).1)
    have hsum1 : (collectRho st nearby).1.sum ≤ ((collectRho st nearby).1.length : ℚ) :=
      list_sum_le_length _ (fun x hx => (hvals x hx).2)
    constructor
    · simp only [hemp, if_false]
      exact div_nonneg hsum0 (le_of_lt hpos)
    · simp only [hemp, if_false]
      exact (div_le_one hpos).mpr hsum1

theorem localDensityRun_snd_inv (st : Occupancy) (h : SmInv st) (pos : Node) (r : ℚ) :
    SmInv (localDensityRun st pos r).2 := by
  unfold localDensityRun
  by_cases hemp : (st.edges.filter
      (fun e => withinRadius pos e.1 r || withinRadius pos e.2 r)).isEmpty
  · simpa [hemp] using h
  · simpa [hemp] using (collectRho_spec _ st h).2

theorem occStep_inv (st : Occupancy) (h : SmInv st) (op : OccOp) :
    SmInv (occStep st op) := by
  cases op with
  | enter u v id => exact ⟨h.1, h.2.1, h.2.2⟩
  | leave u v id => exact ⟨h.1, h.2.1, h.2.2⟩
  | setCapacity u v c => exact ⟨h.1, h.2.1, h.2.2⟩
  | density e => exact rhoStep_inv st h e
  | localDensity p r => exact localDensityRun_snd_inv st h p r

theorem occFold_inv (ops : List OccOp) :
    ∀ st : Occupancy, SmInv st → SmInv (ops.foldl occStep st) := by
  induction ops with
  | nil => intro st h; simpa using h
  | cons op rest ih =>
      intro st h
      simpa using ih (occStep st op) (occStep_inv st h op)

/-! ### C8: density bounds -/

/-- C8: for every city edge list, every finite occupancy history (enter,
leave, set_capacity, density and local-density queries) and every queried
segment and point, the smoothed density returned by `rho` and the local
density aggregate both lie in `[0, 1]`. -/
theorem C8_density_bounds (edges : List Edge) (ops : List OccOp) (edge : Edge)
    (pos : Node) (radius : ℚ) :
    (0 ≤ rhoVal (occRun edges ops) edge ∧ rhoVal (occRun edges ops) edge ≤ 1) ∧
    (0 ≤ (localDensityRun (occRun edges ops) pos radius).1 ∧
      (localDensityRun (occRun edges ops) pos radius).1 ≤ 1) := by
  have hinv : SmInv (occRun edges ops) := occFold_inv ops (occStart edges) (occStart_inv edges)
  exact ⟨rhoVal_bounds _ hinv edge, localDensityRun_fst_bounds _ hinv pos radius⟩

/-! ### C9: the commit frame effect on occupancy -/

/-- Pointwise unfolding of `Occupancy.enter`. -/
theorem occEnter_roadUsage (st : Occupancy) (u v : Node) (id : String) (e : Edge) :
    (occEnter st u v id).roadUsage e =
      if e = normalizeEdge (u, v) then insert id (st.roadUsage e) else st.roadUsage e := rfl

/-- Pointwise unfolding of `Occupancy.leave`. -/
theorem occLeave_roadUsage (st : Occupancy) (u v : Node) (id : String) (e : Edge) :
    (occLeave st u v id).roadUsage e =
      if e = normalizeEdge (u, v) then (st.roadUsage e).erase id else st.roadUsage e := rfl

/-- Re-inserting an element after discarding it is the same as inserting it. -/
theorem insert_erase_eq_insert (s : Finset String) (a : String) :
    insert a (s.erase a) = insert a s := by
  ext x
  simp only [Finset.mem_insert, Finset.mem_erase]
  by_cases hx : x = a
  · simp [hx]
  · simp [hx]

/-- The occupancy update performed when a vehicle commits a move in
`VehicleAgent.VehicleBehaviour.run` (and identically in
`EmergencyVehicleAgent.EmergencyBehaviour.run`):
`occupancy.leave(old_pos, new_pos, label)` followed by
`occupancy.enter(old_pos, new_pos, label)` — both calls receive the same
`(old_pos, new_pos)` pair. -/
def commitMove (st : Occupancy) (oldPos newPos : Node) (id : String) : Occupancy :=
  occEnter (occLeave st oldPos newPos id) oldPos newPos id

/-- Two successive committed moves of vehicle `v1`. -/
def c9Demo : Occupancy :=
  commitMove (commitMove (occStart [((0,0),(0,1)), ((0,1),(0,2))]) (0,0) (0,1) "v1")
    (0,1) (0,2) "v1"

/-- C9 counterexample: after committing the move `(0,0) -> (0,1)` and then the
move `(0,1) -> (0,2)`, vehicle `v1` is still in the occupant set of segment
`((0,0),(0,1))` as well as in that of `((0,1),(0,2))` — it was never removed
from the previously occupied segment, so it occupies two segments, not one. -/
theorem C9_counterexample :
    "v1" ∈ c9Demo.roadUsage (normalizeEdge ((0,0),(0,1))) ∧
    "v1" ∈ c9Demo.roadUsage (normalizeEdge ((0,1),(0,2))) := by
  decide

/-- C9 amended: a commit adds the agent's identifier to the occupant set of
the traversed segment `(old, new)` and leaves the occupant set of every other
segment unchanged; in particular the agent is never removed from the segment
it previously occupied (the `leave` call targets the same `(old, new)`
segment the `enter` call targets, not the previous one). -/
theorem C9_commit_adds_only_new_segment (st : Occupancy) (oldPos newPos : Node)
    (id : String) (e : Edge) :
    (commitMove st oldPos newPos id).roadUsage e =
      if e = normalizeEdge (oldPos, newPos) then insert id (st.roadUsage e)
      else st.roadUsage e := by
  unfold commitMove
  rw [occEnter_roadUsage, occLeave_roadUsage]
  by_cases he : e = normalizeEdge (oldPos, newPos)
  · rw [if_pos he, if_pos he, if_pos he]
    exact insert_erase_eq_insert (st.roadUsage e) id
  · rw [if_neg he, if_neg he, if_neg he]

/-! ## vehicle.py : the `_wait_for_green` negotiation loop

`VehicleAgent.VehicleBehaviour._wait_for_green(from_pos, to_pos)` looks up the
traffic light guarding `to_pos` and returns at once when there is none.
Otherwise it enters `while True`: send a `passage_request`, await the reply
for 0.8 s; on timeout sleep and continue; on a reply, return if its `granted`
metadata is the string `true`, else sleep and continue.  The iteration
behaviour is fully determined by the sequence of per-iteration reply
outcomes, which the embedding takes as a function `ℕ → LightReply`. -/

/-- Outcome of the bounded receive in one loop iteration. -/
inductive LightReply
  | noReply
  | reply (granted : Bool)
  deriving DecidableEq, Repr

/-- Fueled unfolding of the `while True` loop of `_wait_for_green`:
`waitLoop replies fuel i` is the iteration index at which the loop returns
(the first granted reply at or after iteration `i`), or `none` when the loop
is still running after `fuel` further iterations.  The source loop has no
other exit: timeouts and denials both `continue`. -/
def waitLoop (replies : ℕ → LightReply) : ℕ → ℕ → Option ℕ
  | 0, _ => none
  | fuel+1, i =>
      match replies i with
      | .reply true => some i
      | _ => waitLoop replies fuel (i + 1)

/-- The loop terminates on the reply sequence: some finite fuel makes it
return. -/
def WaitTerminates (replies : ℕ → LightReply) : Prop :=
  ∃ fuel, (waitLoop replies fuel 0).isSome

/-- On the all-deny sequence the loop never returns, whatever the fuel. -/
theorem waitLoop_allDeny (fuel i : ℕ) :
    waitLoop (fun _ => LightReply.reply false) fuel i = none := by
  induction fuel generalizing i with
  | zero => rfl
  | succ n ih => simpa [waitLoop] using ih (i + 1)

/-- A loop exit index carries a granted reply. -/
theorem waitLoop_some_granted (replies : ℕ → LightReply) :
    ∀ (fuel i j : ℕ), waitLoop replies fuel i = some j → replies j = .reply true := by
  intro fuel
  induction fuel with
  | zero => intro i j h; simp [waitLoop] at h
  | succ n ih =>
      intro i j h
      unfold waitLoop at h
      rcases hr : replies i with _ | b
      · rw [hr] at h
        exact ih (i + 1) j h
      · cases b
        · rw [hr] at h
          exact ih (i + 1) j h
        · rw [hr] at h
          simp at h
          rw [← h]
          exact hr

/-- With a granted reply `n` iterations ahead, fuel `n + 1` makes the loop
return. -/
theorem waitLoop_reaches (replies : ℕ → LightReply) :
    ∀ (n i : ℕ), replies (i + n) = .reply true → (waitLoop replies (n + 1) i).isSome := by
  intro n
  induction n with
  | zero =>
      intro i h
      rw [Nat.add_zero] at h
      simp [waitLoop, h]
  | succ n ih =>
      intro i h
      have h2 : replies ((i + 1) + n) = .reply true := by
        have : (i + 1) + n = i + (n + 1) := by omega
        rw [this]
        exact h
      rcases hr : replies i with _ | b
      · simpa [waitLoop, hr] using ih (i + 1) h2
      · cases b
        · simpa [waitLoop, hr] using ih (i + 1) h2
        · simp [waitLoop, hr]

/-! ### C6: the negotiation loop is unbounded -/

/-- C6 counterexample: on the all-deny reply sequence the `_wait_for_green`
loop never terminates — there is no bound after which the vehicle abandons
the plan, contradicting the claimed bounded number of retries. -/
theorem C6_counterexample : ¬ WaitTerminates (fun _ => LightReply.reply false) := by
  rintro ⟨fuel, h⟩
  rw [waitLoop_allDeny fuel 0] at h
  simp at h

/-- C6 amended: the wait-for-green loop performs an unbounded number of
request/retry exchanges — it terminates exactly when some iteration receives
a granted reply; with all-deny or no-reply sequences it retries forever (each
individual receive has a 0.8 s timeout, but the loop never abandons the plan). -/
theorem C6_wait_terminates_iff_granted (replies : ℕ → LightReply) :
    WaitTerminates replies ↔ ∃ i, replies i = .reply true := by
  constructor
  · rintro ⟨fuel, h⟩
    rcases hj : waitLoop replies fuel 0 with _ | j
    · rw [hj] at h
      simp at h
    · exact ⟨j, waitLoop_some_granted replies fuel 0 j hj⟩
  · rintro ⟨i, hi⟩
    exact ⟨i + 1, waitLoop_reaches replies i 0 (by simpa using hi)⟩

/-! ## city.py traffic-light placement and the no-light fast path -/

/-- Python `range(0, w, 4)` as integers: `0, 4, 8, …` below `w`. -/
def pyRangeStep4 (w : ℕ) : List ℤ :=
  (List.range ((w + 3) / 4)).map (fun k => ((4 * k : ℕ) : ℤ))

/-- Characterization of `range(0, w, 4)`: exactly the nonnegative multiples
of 4 below `w`. -/
theorem mem_pyRangeStep4 (w : ℕ) (x : ℤ) :
    x ∈ pyRangeStep4 w ↔ 4 ∣ x ∧ 0 ≤ x ∧ x < (w : ℤ) := by
  unfold pyRangeStep4
  rw [List.mem_map]
  constructor
  · rintro ⟨k, hk, rfl⟩
    rw [List.mem_range] at hk
    refine ⟨⟨(k : ℤ), by push_cast; ring⟩, by positivity, ?_⟩
    omega
  · rintro ⟨⟨c, rfl⟩, h0, hw⟩
    refine ⟨c.toNat, ?_, ?_⟩
    · rw [List.mem_range]
      omega
    · omega

/-- `CityEnvironment._add_traffic_lights`: one light `light_x_y` at `(x, y)`
for every `x in range(0, width, 4)` and `y in range(0, height, 4)`. -/
def trafficLights (w h : ℕ) : List (String × Node) :=
  (pyRangeStep4 w).flatMap (fun x => (pyRangeStep4 h).map (fun y =>
    ("light_" ++ toString x ++ "_" ++ toString y, (x, y))))

/-- `VehicleAgent._light_jid_for(node)`: the id of the first traffic light
whose position equals the node, with `@localhost` appended; `None` when no
light guards the node. -/
def lightJidFor (lights : List (String × Node)) (node : Node) : Option String :=
  (lights.find? (fun p => decide (p.2 = node))).map (fun p => p.1 ++ "@localhost")

/-- A `passage_request` message as sent by `_wait_for_green`. -/
structure PassageRequest where
  toJid : String
  fromPos : Node
  toPos : Node
  deriving DecidableEq, Repr

/-- Requests sent by the `while True` loop: one per iteration, up to and
including the iteration that receives a granted reply (`fuel` bounds the
observation window; the loop itself is unbounded). -/
def loopRequests (jid : String) (fromPos toPos : Node) (replies : ℕ → LightReply) :
    ℕ → ℕ → List PassageRequest
  | 0, _ => []
  | fuel+1, i =>
      { toJid := jid, fromPos := fromPos, toPos := toPos } ::
        (match replies i with
         | .reply true => []
         | _ => loopRequests jid fromPos toPos replies fuel (i + 1))

/-- The full message trace of `_wait_for_green(from_pos, to_pos)`: nothing at
all when no traffic light guards `to_pos` (the function returns before the
loop); otherwise the loop trace. -/
def waitForGreenRequests (lights : List (String × Node)) (fromPos toPos : Node)
    (replies : ℕ → LightReply) (fuel : ℕ) : List PassageRequest :=
  match lightJidFor lights toPos with
  | none => []
  | some jid => loopRequests jid fromPos toPos replies fuel 0

/-! ### C10: moves to unguarded nodes need no grant -/

/-- C10: every traffic light sits at a node whose coordinates are both
multiples of 4 (inside the grid), and for a step whose destination is not the
position of any traffic light, `_wait_for_green` finds no light and returns
immediately, sending no request at all — the move proceeds without
negotiation. -/
theorem C10_unguarded_nodes_skip_negotiation (w h : ℕ) (fromPos toPos : Node)
    (replies : ℕ → LightReply) (fuel : ℕ)
    (hnode : ¬ (4 ∣ toPos.1 ∧ 4 ∣ toPos.2 ∧ 0 ≤ toPos.1 ∧ toPos.1 < (w : ℤ) ∧
      0 ≤ toPos.2 ∧ toPos.2 < (h : ℤ))) :
    (∀ p ∈ trafficLights w h, 4 ∣ p.2.1 ∧ 4 ∣ p.2.2 ∧ 0 ≤ p.2.1 ∧ p.2.1 < (w : ℤ) ∧
      0 ≤ p.2.2 ∧ p.2.2 < (h : ℤ)) ∧
    lightJidFor (trafficLights w h) toPos = none ∧
    waitForGreenRequests (trafficLights w h) fromPos toPos replies fuel = [] := by
  have hmem : ∀ p ∈ trafficLights w h, 4 ∣ p.2.1 ∧ 4 ∣ p.2.2 ∧ 0 ≤ p.2.1 ∧
      p.2.1 < (w : ℤ) ∧ 0 ≤ p.2.2 ∧ p.2.2 < (h : ℤ) := by
    intro p hp
    simp only [trafficLights, List.mem_flatMap, List.mem_map] at hp
    obtain ⟨x, hx, q, hq, rfl⟩ := hp
    rw [mem_pyRangeStep4] at hx hq
    dsimp only
    exact ⟨hx.1, hq.1, hx.2.1, hx.2.2, hq.2.1, hq.2.2⟩
  have hnone : lightJidFor (trafficLights w h) toPos = none := by
    unfold lightJidFor
    have hfind : (trafficLights w h).find? (fun p => decide (p.2 = toPos)) = none := by
      rw [List.find?_eq_none]
      intro p hp
      simp only [decide_eq_true_eq]
      intro hpe
      exact hnode (hpe ▸ hmem p hp)
    rw [hfind]
    rfl
  exact ⟨hmem, hnone, by simp [waitForGreenRequests, hnone]⟩

/-! ## The dynamic A* weights of vehicle.py and emergency_vehicle.py -/

/-- The methods the `Occupancy` class defines (the `def`s in
`environment/occupancy.py`). -/
def occupancyMethodNames : List String :=
  ["__init__", "set_capacity", "_normalize_edge", "enter", "leave",
   "_instant_rho", "rho", "is_full", "local_density", "_distance"]

/-- The methods the `EventManager` class defines (the `def`s in
`environment/events.py`). -/
def eventManagerMethodNames : List String :=
  ["__init__", "_normalize_edge", "clear_expired", "spawn_incident",
   "spawn_temporary_block", "is_blocked", "penalty", "blocked_edges",
   "blocked_nodes", "__repr__"]

/-- The call `self.city.occupancy.edge_density(u, v)` in `_dynamic_weight`:
`Occupancy` defines no method `edge_density` (its density accessor is `rho`),
so the attribute lookup raises `AttributeError`, and the surrounding
`try/except` substitutes `occ = 0.0`.  `none` models the raised lookup. -/
def edgeDensityCall : Option ℚ := none

/-- The call `self.city.event_manager.edge_penalty(u, v)`: `EventManager`
defines no method `edge_penalty` (its accessor is `penalty(edge)`), so the
call raises `AttributeError` and the `except` branch leaves `pen = 0.0`. -/
def edgePenaltyCall : Option ℚ := none

/-- The call `self.city.event_manager.is_node_blocked(v)`: no such method
exists, so the `try/except: pass` skips the `pen += 9999.0` line. -/
def isNodeBlockedCall : Option Bool := none

/-- `VehicleAgent._dynamic_weight(u, v, d)`: `base = d.get("weight", 1.0)`
(taken here as the parameter `base`), plus `0.6 * occ + pen`, where `occ` and
`pen` come from the failed dynamic calls above with fallback `0.0`, and the
node-block extra is skipped when its call fails. -/
def vehicleDynamicWeight (base : ℚ) : ℚ :=
  let occ := edgeDensityCall.getD 0
  let pen := edgePenaltyCall.getD 0
  let pen2 := pen + (if isNodeBlockedCall.getD false then 9999 else 0)
  base + 6/10 * occ + pen2

/-- `EmergencyVehicleAgent._dynamic_weight(u, v, d)`: same shape with
congestion factor `0.3` and no node-block extra. -/
def emergencyDynamicWeight (base : ℚ) : ℚ :=
  let occ := edgeDensityCall.getD 0
  let pen := edgePenaltyCall.getD 0
  base + 3/10 * occ + pen

/-- The per-edge cost the claim states for ordinary vehicles:
`base + 0.6 * density(u,v) + incidentPenalty(u,v)` with the tracker's
smoothed density and the event store's penalty. -/
def claimedVehicleCost (st : Occupancy) (em : EventMap) (now : ℚ) (u v : Node)
    (base : ℚ) : ℚ :=
  base + 6/10 * rhoVal st (u, v) + emPenalty em (u, v) now

/-- Tracker state with one vehicle on segment `((0,0),(0,1))`. -/
def c5Occ : Occupancy := occEnter (occStart [((0,0),(0,1))]) (0,0) (0,1) "v1"

/-- Event store with an active severity-2 incident on `((0,0),(0,1))`. -/
def c5Em : EventMap := spawnIncident emEmpty ((0,0),(0,1)) 2 30 0

/-! ### C5: the composite edge cost -/

/-- C5: the planners' `_dynamic_weight` does not implement the composite
cost.  Neither `edge_density` nor `edge_penalty` exists on the classes they
are called on, so both try/except blocks fall back to zero and the effective
cost is the bare base weight for ordinary and emergency vehicles alike;
concretely, with one vehicle and a severity-2 incident on `((0,0),(0,1))`,
the claimed formula gives `1 + 0.6 * 0.06 + 2 = 759/250` while the code
returns `1`. -/
theorem C5_dynamic_weight_is_base_only :
    ("edge_density" ∉ occupancyMethodNames ∧
      "edge_penalty" ∉ eventManagerMethodNames) ∧
    (∀ base : ℚ, vehicleDynamicWeight base = base) ∧
    (∀ base : ℚ, emergencyDynamicWeight base = base) ∧
    claimedVehicleCost c5Occ c5Em 0 (0,0) (0,1) 1 = 759/250 ∧
    vehicleDynamicWeight 1 = 1 := by
  refine ⟨⟨by decide, by decide⟩, ?_, ?_, ?_, ?_⟩
  · intro base
    norm_num [vehicleDynamicWeight, edgeDensityCall, edgePenaltyCall, isNodeBlockedCall]
  · intro base
    norm_num [emergencyDynamicWeight, edgeDensityCall, edgePenaltyCall]
  · have hstore : c5Em (normalizeEdge ((0,0),(0,1))) =
        some { severity := 2, ttl := 30, createdAt := 0, expiresAt := 30 } := by
      simp only [c5Em, spawnIncident, clearExpired, emEmpty, normalizeEdge, nodeLe]
      norm_num
    have hpen : emPenalty c5Em ((0,0),(0,1)) 0 = 2 := by
      have hc : clearExpired c5Em 0 (normalizeEdge ((0,0),(0,1))) =
          some { severity := 2, ttl := 30, createdAt := 0, expiresAt := 30 } := by
        unfold clearExpired
        rw [hstore]
        norm_num
      rw [emPenalty_eq, hc]
    have hrho : rhoVal c5Occ ((0,0),(0,1)) = 3/50 := by
      unfold rhoVal instantRho
      norm_num [c5Occ, occEnter, occStart, normalizeEdge, nodeLe]
    unfold claimedVehicleCost
    rw [hpen, hrho]
    norm_num
  · norm_num [vehicleDynamicWeight, edgeDensityCall, edgePenaltyCall, isNodeBlockedCall]

/-- Witness for C10: in the default 20x20 city, node `(3, 4)` hosts no
traffic light, so a step onto it sends no passage request. -/
theorem C10_unguarded_nodes_skip_negotiation_witness :
    (∀ p ∈ trafficLights 20 20, 4 ∣ p.2.1 ∧ 4 ∣ p.2.2 ∧ 0 ≤ p.2.1 ∧
      p.2.1 < (20 : ℤ) ∧ 0 ≤ p.2.2 ∧ p.2.2 < (20 : ℤ)) ∧
    lightJidFor (trafficLights 20 20) (3, 4) = none ∧
    waitForGreenRequests (trafficLights 20 20) (3, 3) (3, 4)
      (fun _ => LightReply.reply false) 5 = [] :=
  C10_unguarded_nodes_skip_negotiation 20 20 (3, 3) (3, 4)
    (fun _ => LightReply.reply false) 5 (by decide)

/-! ## routing.py : Weighted A* and `route_a_star`

`astar` is a `while open_heap` loop over a `heapq` of `(f, node)` pairs with
dictionaries `came_from`, `g` and `steps`.  The embedding carries those four
pieces of state explicitly and bounds the loop with fuel (the source loop is
a `while`; fuel exhaustion is reported as an error, never as a path). -/

/-- Strict lexicographic order on nodes (Python tuple `<`). -/
def nodeLt (a b : Node) : Bool :=
  decide (a.1 < b.1) || (decide (a.1 = b.1) && decide (a.2 < b.2))

/-- Python comparison of two heap entries `(f, node)`: by `f`, ties by the
node tuple. -/
def keyLt (x y : ℚ × Node) : Bool :=
  decide (x.1 < y.1) || (decide (x.1 = y.1) && nodeLt x.2 y.2)

/-- `heappop`: remove and return the least entry of the heap.  `heapq` is
modelled as the plain list of entries; since the entry order is total and
equal entries are identical, popping the leftmost minimum agrees with the
binary-heap behaviour. -/
def popMin : List (ℚ × Node) → Option ((ℚ × Node) × List (ℚ × Node))
  | [] => none
  | x :: xs =>
      match popMin xs with
      | none => some (x, [])
      | some (m, rest) => if keyLt m x then some (m, x :: rest) else some (x, xs)

/-- The search state of `astar`: the open heap and the `came_from`, `g` and
`steps` dictionaries. -/
structure AStarState where
  openHeap : List (ℚ × Node)
  cameFrom : Node → Option Node
  gScore : Node → Option ℚ
  steps : Node → Option ℕ

/-- `_reconstruct(came_from, current)`: walk the predecessor map back from
the goal, accumulating the reversed path (`path.append` then `path.reverse()`
in the source).  Fueled because a cyclic map would make the source loop
forever; fuel exhaustion yields `none`. -/
def reconstruct (cf : Node → Option Node) : ℕ → Node → List Node → Option (List Node)
  | 0, _, _ => none
  | fuel+1, cur, acc =>
      match cf cur with
      | none => some (cur :: acc)
      | some p => reconstruct cf fuel p (cur :: acc)

/-- The `for nb in neighbors_fn(cur)` body of `astar`: skip forbidden edges,
compute the arrival tick and the edge cost, and relax
(`came_from`/`g`/`steps` updates plus a `heappush` of `(g + w*h, nb)`). -/
def relaxNeighbors (goal : Node) (edgeCost : Node → Node → ℕ → Except String ℚ)
    (heuristic : Node → Node → ℚ) (isForbidden : Node → Node → Except String Bool)
    (weight : ℚ) (startTick etaPerEdge : ℕ) (cur : Node) (curSteps : ℕ) :
    List Node → AStarState → Except String AStarState
  | [], st => .ok st
  | nb :: rest, st => do
      let fb ← isForbidden cur nb
      if fb then
        relaxNeighbors goal edgeCost heuristic isForbidden weight startTick etaPerEdge
          cur curSteps rest st
      else
        let tickEta := startTick + (curSteps + 1) * etaPerEdge
        let cost ← edgeCost cur nb tickEta
        match st.gScore cur with
        | none => .error "KeyError"
        | some gcur =>
            let tentative := gcur + cost
            let better := match st.gScore nb with
              | some gnb => decide (tentative < gnb)
              | none => true
            if better then
              relaxNeighbors goal edgeCost heuristic isForbidden weight startTick etaPerEdge
                cur curSteps rest
                { openHeap := st.openHeap ++ [(tentative + weight * heuristic nb goal, nb)],
                  cameFrom := fun n => if n = nb then some cur else st.cameFrom n,
                  gScore := fun n => if n = nb then some tentative else st.gScore n,
                  steps := fun n => if n = nb then some (curSteps + 1) else st.steps n }
            else
              relaxNeighbors goal edgeCost heuristic isForbidden weight startTick etaPerEdge
                cur curSteps rest st

/-- The `while open_heap` loop of `astar`. -/
def astarLoop (goal : Node) (neighbors : Node → List Node)
    (edgeCost : Node → Node → ℕ → Except String ℚ) (heuristic : Node → Node → ℚ)
    (isForbidden : Node → Node → Except String Bool) (weight : ℚ)
    (startTick etaPerEdge : ℕ) : ℕ → AStarState → Except String (Option (List Node))
  | 0, _ => .error "OutOfFuel"
  | fuel+1, st =>
      match popMin st.openHeap with
      | none => .ok none
      | some ((_, cur), rest) =>
          if cur = goal then
            match reconstruct st.cameFrom (fuel + 1) cur [] with
            | some path => .ok (some path)
            | none => .error "OutOfFuel"
          else
            match st.steps cur with
            | none => .error "KeyError"
            | some curSteps => do
                let st2 ← relaxNeighbors goal edgeCost heuristic isForbidden weight
                  startTick etaPerEdge cur curSteps (neighbors cur) { st with openHeap := rest }
                astarLoop goal neighbors edgeCost heuristic isForbidden weight
                  startTick etaPerEdge fuel st2

/-- `astar(start, goal, neighbors_fn, edge_cost_fn, heuristic_fn, ...)`:
push `(0.0, start)`, set `g[start] = 0` and `steps[start] = 0`, and run the
loop. -/
def astarE (start goal : Node) (neighbors : Node → List Node)
    (edgeCost : Node → Node → ℕ → Except String ℚ) (heuristic : Node → Node → ℚ)
    (isForbidden : Node → Node → Except String Bool) (weight : ℚ)
    (startTick etaPerEdge fuel : ℕ) : Except String (Option (List Node)) :=
  astarLoop goal neighbors edgeCost heuristic isForbidden weight startTick etaPerEdge fuel
    { openHeap := [(0, start)],
      cameFrom := fun _ => none,
      gScore := fun n => if n = start then some 0 else none,
      steps := fun n => if n = start then some 0 else none }

/-- `manhattan(a, b)` from routing.py. -/
def manhattanQ (a b : Node) : ℚ :=
  (((a.1 - b.1).natAbs + (a.2 - b.2).natAbs : ℕ) : ℚ)

/-- The first positional argument `route_a_star.is_forbidden` passes to
`events.is_blocked`: a single node, where the method expects an edge. -/
inductive EdgeArg
  | edge (e : Edge)
  | node (n : Node)

/-- The second positional argument (bound to `threshold`): a number in a
correct call, a node in the call `is_blocked(a, b)`. -/
inductive PyNum
  | num (q : ℚ)
  | node (n : Node)

/-- `EventManager._normalize_edge(edge)` under Python dynamic typing:
`u, v = edge` unpacks the argument, then `tuple(u), tuple(v)` convert each
component.  A proper edge normalizes; a node argument unpacks into two ints
and `tuple(u)` raises `TypeError: argument of type int is not iterable`. -/
def normalizeEdgeDyn : EdgeArg → Except String Edge
  | .edge e => .ok (normalizeEdge e)
  | .node _ => .error "TypeError"

/-- `EventManager.is_blocked` invoked with positional arguments
(`edge`, `threshold`): normalization runs first and may raise; a node bound
to `threshold` would raise in the comparison `inc.severity >= threshold`. -/
def isBlockedDyn (em : EventMap) (arg : EdgeArg) (threshold : PyNum) (now : ℚ) :
    Except String Bool := do
  let key ← normalizeEdgeDyn arg
  match clearExpired em now key with
  | some inc =>
      match threshold with
      | .num q => pure (decide (q ≤ inc.severity))
      | .node _ => .error "TypeError"
  | none => pure false

/-- `route_a_star.is_forbidden(a, b)` with `occupancy = None` (the capacity
branch `occupancy and hasattr(occupancy, "is_full") and ...` is then
skipped): when an events manager is present, it calls
`events.is_blocked(a, b)` — node `a` bound to `edge`, node `b` bound to
`threshold`. -/
def isForbiddenRA (events : Option EventMap) (now : ℚ) (a b : Node) :
    Except String Bool := do
  match events with
  | some em =>
      let blocked ← isBlockedDyn em (.node a) (.node b) now
      if blocked then pure true else pure false
  | none => pure false

/-- `route_a_star.edge_cost` against `CityEnvironment`: the class defines
neither `edge_cost` nor `time_penalty`, so both `hasattr` guards fail and the
cost is the fallback `base = 1.0` plus `extra = 0.0`. -/
def cityEdgeCost : Node → Node → ℕ → Except String ℚ := fun _ _ _ => .ok 1

/-- `route_a_star(city, events, occupancy=None, start, goal, ...)`. -/
def routeAStar (neighbors : Node → List Node) (events : Option EventMap) (now : ℚ)
    (start goal : Node) (weight : ℚ) (startTick etaPerEdge fuel : ℕ) :
    Except String (Option (List Node)) :=
  astarE start goal neighbors cityEdgeCost manhattanQ (isForbiddenRA events now)
    weight startTick etaPerEdge fuel

/-- Neighbour function of a 2-node city: `(0,0) — (1,0)`. -/
def grid2Neighbors : Node → List Node := fun n =>
  if n = ((0 : ℤ), (0 : ℤ)) then [(1, 0)]
  else if n = ((1 : ℤ), (0 : ℤ)) then [(0, 0)]
  else []

/-! ### C1: router soundness -/

/-- C1: `route_a_star` composed with the repository `EventManager` cannot
return a path at all for any `start ≠ goal`: its `is_forbidden` calls
`events.is_blocked(a, b)`, binding node `a` to the `edge` parameter, and
`_normalize_edge` raises `TypeError` on the very first neighbour examined —
even on a two-node city with an *empty* event store and a free edge.  The
same search succeeds (and returns the correct path) when `events` is `None`,
and a degenerate `start = goal` query returns `[start]` before any neighbour
is examined, confirming the failure is exactly the blocked-edge check the
claim relies on. -/
theorem C1_route_a_star_type_error :
    routeAStar grid2Neighbors (some emEmpty) 0 (0, 0) (1, 0) 1 0 1 10
      = .error "TypeError" ∧
    routeAStar grid2Neighbors none 0 (0, 0) (1, 0) 1 0 1 10
      = .ok (some [(0, 0), (1, 0)]) ∧
    routeAStar grid2Neighbors (some emEmpty) 0 (0, 0) (0, 0) 1 0 1 10
      = .ok (some [(0, 0)]) := by
  refine ⟨rfl, rfl, rfl⟩

end Traffic
